import Mathlib

/-!
# margo: `golang/gocode_suggest.go`

A shallow embedding of the caching package importer (`gsuImporter.ImportFrom`), of the
strategy selector (`gcSuggest.newImporter`) and of the completion adapter
(`gcSuggest.candidates`), followed by the properties proved about them.

Conventions of the embedding.

* A Go pointer `*types.Package` is an `Option Package`; `none` is the nil pointer.
* A Go `error` value is an `Option GoError`; `none` is the nil error.
* The map `map[gsImpKey]*types.Package` is a function from keys to `Option PkgPtr`;
  `none` means the key is absent, `some none` a key bound to a nil pointer.
* The resolver is passed and returned explicitly where Go shares it through the pointer
  `gi.gsu`.
* Calls to collaborators (build context, strategies, profiler, logger, mutex, completion
  algorithm) are recorded, in order, in a list of `Event`s, so that "is not consulted" is
  a statement about that list.
* A Go panic is the `Outcome.panic` result.
-/

namespace Margo

/-- The cache key `gsImpKey`. -/
structure gsImpKey where
  path : String
  dir : String
deriving DecidableEq, Repr

/-- The part of a `types.Package` this file reads: its path and what `Complete()` reports. -/
structure Package where
  path : String
  complete : Bool
deriving DecidableEq, Repr

/-- A `*types.Package`. -/
abbrev PkgPtr := Option Package

/-- A non-nil Go `error`. -/
structure GoError where
  msg : String
deriving DecidableEq, Repr

/-- A Go `error` interface value. -/
abbrev ErrVal := Option GoError

/-- The package `types.Unsafe` of go/types. -/
def types.Unsafe : Package := ⟨"unsafe", true⟩

/-- The fields of a `build.Package` that `ImportFrom` reads. -/
structure build.Package where
  Goroot : Bool
  ImportPath : String
deriving DecidableEq, Repr

/-- A `*build.Context`, through its method `Import(path, srcDir, mode)`. The method of the
concrete type always returns a non-nil `*build.Package`, also next to an error. -/
structure build.Context where
  Import : String → String → Int → build.Package × ErrVal

/-- Which constructor of `newImporter` made a strategy. -/
inductive StrategyKind where
  | source
  | gcexportdata
  | hostDefault
deriving DecidableEq, Repr

/-- A `types.ImporterFrom` value: the constructor that made it and what its method
`ImportFrom(path, srcDir, mode)` returns. -/
structure ImporterFrom where
  kind : StrategyKind
  ImportFrom : String → String → Int → PkgPtr × ErrVal

/-- The options `gsuOpts`. -/
structure gsuOpts where
  ProposeBuiltins : Bool
  Debug : Bool
  Source : Bool
deriving DecidableEq, Repr

/-- The cache `map[gsImpKey]*types.Package`. -/
abbrev Cache := gsImpKey → Option PkgPtr

/-- The assignment `cache[k] = p`. -/
def Cache.set (c : Cache) (k : gsImpKey) (p : PkgPtr) : Cache :=
  fun k2 => if k2 = k then some p else c k2

/-- The resolver `gcSuggest`; `locked` is the state of the embedded `sync.Mutex`. -/
structure gcSuggest extends gsuOpts where
  locked : Bool
  grImp : ImporterFrom
  cache : Cache

/-- Calls to collaborators, in the order they happen. -/
inductive Event where
  | profilePush (name : String)
  | profilePop
  | mutexLock
  | mutexUnlock
  | buildContext
  | newImporter (kind : StrategyKind)
  | readAll
  | suggest (filename : String) (pos : Int)
  | bldImport (impPath srcDir : String) (mode : Int)
  | strategy (shared : Bool) (kind : StrategyKind) (impPath srcDir : String) (mode : Int)
  | dbgPrintf (format : String) (args : List String)
  | logPrintf (format : String) (args : List String)
deriving DecidableEq, Repr

/-- How a Go call ends: it returns a value or it panics. -/
inductive Outcome (α : Type) where
  | ret (v : α)
  | panic (v : String)
deriving DecidableEq, Repr

/-- The result of running a method of the resolver: how it ended, the resolver afterwards
and the calls it made to collaborators. -/
structure Ran (α : Type) where
  out : Outcome α
  gsu : gcSuggest
  events : List Event

/-- The request importer `gsuImporter`. Its fields `mx` and `gsu` are not data here: the
profiler and logger of `mx` appear as events and the resolver is passed explicitly. -/
structure gsuImporter where
  bld : build.Context
  imp : ImporterFrom

/-- The method `gcSuggest.dbgf`: prints only when `Debug` is set. -/
def gcSuggest.dbgf (gsu : gcSuggest) (f : String) (a : List String) : List Event :=
  if !gsu.Debug then [] else [Event.dbgPrintf ("Gocode: " ++ f) a]

/-- The text of an error, as printed by `%s`. -/
def GoError.Error (e : GoError) : String := e.msg

/-- The name printed by `%T` for a strategy. -/
def StrategyKind.typeName : StrategyKind → String
  | .source => "*srcimporter.Importer"
  | .gcexportdata => "gcexportdata.importer"
  | .hostDefault => "types.ImporterFrom"

/-- The method `gsuImporter.ImportFrom`. The deferred `Pop` runs on every exit after the
`Push`, a panic included. Calling `Complete()` through a nil pointer panics. -/
def gsuImporter.ImportFrom (gi : gsuImporter) (gsu : gcSuggest) (impPath srcDir : String)
    (mode : Int) : Ran (PkgPtr × ErrVal) :=
  let cache := gsu.cache
  let impKey : gsImpKey := ⟨impPath, srcDir⟩
  match cache impKey with
  | some p => ⟨.ret (p, none), gsu, []⟩
  | none =>
    let pushed := [Event.profilePush impPath, Event.bldImport impPath srcDir 0]
    match gi.bld.Import impPath srcDir 0 with
    | (_, some err) =>
      ⟨.ret (none, some err), gsu,
        pushed ++ gsu.dbgf "build.Import(%q, %q): %s\n" [impPath, srcDir, err.Error]
          ++ [Event.profilePop]⟩
    | (bpkg, none) =>
      if bpkg.Goroot && bpkg.ImportPath == "unsafe" then
        ⟨.ret (some types.Unsafe, none), gsu, pushed ++ [Event.profilePop]⟩
      else
        let imp := if bpkg.Goroot then gsu.grImp else gi.imp
        let called := pushed ++ [Event.strategy bpkg.Goroot imp.kind impPath srcDir mode]
        match imp.ImportFrom impPath srcDir mode with
        | (none, none) =>
          ⟨.panic "runtime error: invalid memory address or nil pointer dereference", gsu,
            called ++ [Event.profilePop]⟩
        | (some p, none) =>
          if p.complete && bpkg.Goroot then
            ⟨.ret (some p, none), { gsu with cache := cache.set impKey (some p) },
              called ++ [Event.profilePop]⟩
          else
            ⟨.ret (some p, none), gsu, called ++ [Event.profilePop]⟩
        | (p, some err) =>
          ⟨.ret (p, some err), gsu,
            called ++ gsu.dbgf "%T.ImportFrom(%q, %q): %s\n"
              [imp.kind.typeName, impPath, srcDir, err.Error] ++ [Event.profilePop]⟩

/-- The method `gsuImporter.Import`. -/
def gsuImporter.Import (gi : gsuImporter) (gsu : gcSuggest) (path : String) :
    Ran (PkgPtr × ErrVal) :=
  gi.ImportFrom gsu path "." 0

/-- The libraries linked into the host: the identity `runtime.Compiler`, what the three
strategy constructors used by `newImporter` give. -/
structure Host where
  Compiler : String
  sourceImporter : String → String → Int → PkgPtr × ErrVal
  gcexportdataImporter : String → String → Int → PkgPtr × ErrVal
  defaultImporter : String → String → Int → PkgPtr × ErrVal

/-- The method `gcSuggest.newImporter`; it reads only the embedded options. -/
def gcSuggest.newImporter (o : gsuOpts) (host : Host) : ImporterFrom :=
  if o.Source then
    ⟨.source, host.sourceImporter⟩
  else if host.Compiler == "gc" then
    ⟨.gcexportdata, host.gcexportdataImporter⟩
  else
    ⟨.hostDefault, host.defaultImporter⟩

/-- The method `gcSuggest.init`: a fresh, empty cache and a new shared strategy. The options
and the mutex of the receiver, which it keeps, are its arguments. -/
def gcSuggest.init (o : gsuOpts) (locked : Bool) (host : Host) : gcSuggest :=
  { togsuOpts := o, locked := locked, grImp := gcSuggest.newImporter o host,
    cache := fun _ => none }

/-- The constructor `newGcSuggest`. -/
def newGcSuggest (o : gsuOpts) (host : Host) : gcSuggest :=
  gcSuggest.init o false host

/-- A completion candidate `suggest.Candidate`. -/
structure Candidate where
  Class : String
  Name : String
  Type_ : String
deriving DecidableEq, Repr

/-- The view of `mg.Ctx`: the file name, what `ReadAll()` does and the cursor offset. -/
structure View where
  Filename : String
  ReadAll : Outcome (List UInt8 × ErrVal)
  Pos : Int

/-- The request context `mg.Ctx`, with what the collaborator `BuildContext(mx)` does for it. -/
structure Ctx where
  View : View
  BuildContext : Outcome build.Context

/-- The method `gcSuggest.importer`: the request importer, or the panic of
`BuildContext(mx)`. -/
def gcSuggest.importer (gsu : gcSuggest) (host : Host) (mx : Ctx) :
    Outcome gsuImporter × List Event :=
  match mx.BuildContext with
  | .panic v => (.panic v, [Event.buildContext])
  | .ret bld =>
    let imp := gcSuggest.newImporter gsu.togsuOpts host
    (.ret ⟨bld, imp⟩, [Event.buildContext, Event.newImporter imp.kind])

/-- The configuration `suggest.Config`; `Logf` tells whether the callback is set, and the
importer is the request importer. -/
structure suggest.Config where
  Importer : gsuImporter
  Builtin : Bool
  IgnoreCase : Bool
  Logf : Bool

/-- A run of the completion algorithm as seen from the resolver: it returns, panics, or
calls back into the importer or the logging callback and goes on with what it got. -/
inductive SuggestProg where
  | ret (l : List Candidate) (err : ErrVal)
  | panic (v : String)
  | importFrom (impPath srcDir : String) (mode : Int)
      (k : Outcome (PkgPtr × ErrVal) → SuggestProg)
  | importPath (path : String) (k : Outcome (PkgPtr × ErrVal) → SuggestProg)
  | logf (f : String) (a : List String) (k : SuggestProg)

/-- Running the completion algorithm against the request importer of `cfg`. -/
def SuggestProg.run (cfg : suggest.Config) : SuggestProg → gcSuggest →
    Ran (List Candidate × ErrVal)
  | .ret l err, gsu => ⟨.ret (l, err), gsu, []⟩
  | .panic v, gsu => ⟨.panic v, gsu, []⟩
  | .importFrom impPath srcDir mode k, gsu =>
    let r := cfg.Importer.ImportFrom gsu impPath srcDir mode
    let r2 := (k r.out).run cfg r.gsu
    ⟨r2.out, r2.gsu, r.events ++ r2.events⟩
  | .importPath path k, gsu =>
    let r := cfg.Importer.Import gsu path
    let r2 := (k r.out).run cfg r.gsu
    ⟨r2.out, r2.gsu, r.events ++ r2.events⟩
  | .logf f a k, gsu =>
    let r2 := k.run cfg gsu
    ⟨r2.out, r2.gsu, (if cfg.Logf then gsu.dbgf f a else []) ++ r2.events⟩

/-- The completion algorithm `suggest.Config.Suggest(filename, src, pos)`. -/
abbrev SuggestFn := suggest.Config → String → List UInt8 → Int → SuggestProg

/-- The body of `gcSuggest.candidates` after the deferred calls are set up. -/
def gcSuggest.candidatesBody (gsu : gcSuggest) (host : Host) (algo : SuggestFn) (mx : Ctx) :
    Ran (List Candidate) :=
  match gsu.importer host mx with
  | (.panic v, ev) => ⟨.panic v, gsu, ev⟩
  | (.ret gi, ev) =>
    let cfg : suggest.Config := ⟨gi, gsu.ProposeBuiltins, true, gsu.Debug⟩
    let v := mx.View
    match v.ReadAll with
    | .panic e => ⟨.panic e, gsu, ev ++ [Event.readAll]⟩
    | .ret (src, _) =>
      if src.length == 0 then
        ⟨.ret [], gsu, ev ++ [Event.readAll]⟩
      else
        let r := (algo cfg v.Filename src v.Pos).run cfg gsu
        let evs := ev ++ [Event.readAll, Event.suggest v.Filename v.Pos] ++ r.events
        match r.out with
        | .panic e => ⟨.panic e, r.gsu, evs⟩
        | .ret (l, _) => ⟨.ret l, r.gsu, evs⟩

/-- The method `gcSuggest.candidates`. `none` is the call that never gets past `Lock()`
because the mutex is held. After the body, the deferred calls run last in, first out: the
recovering function (which logs a panic and swallows it, so that the zero value nil is
returned), `Unlock()`, and the profiler `Pop()`. -/
def gcSuggest.candidates (gsu : gcSuggest) (host : Host) (algo : SuggestFn) (mx : Ctx) :
    Option (Ran (List Candidate)) :=
  if gsu.locked then
    none
  else
    let r := gcSuggest.candidatesBody { gsu with locked := true } host algo mx
    let entered := [Event.profilePush "candidates", Event.mutexLock] ++ r.events
    let left := [Event.mutexUnlock, Event.profilePop]
    match r.out with
    | .ret l => some ⟨.ret l, { r.gsu with locked := false }, entered ++ left⟩
    | .panic e =>
      some ⟨.ret [], { r.gsu with locked := false },
        entered ++ [Event.logPrintf "gocode/suggest panic: %s\n%s\n" [e, "debug.Stack()"]]
          ++ left⟩


/-- The strategy `ImportFrom` delegates to once the build context has classified the import:
the shared one for a root package, the one of the request otherwise. -/
def gsuImporter.chosen (gi : gsuImporter) (gsu : gcSuggest) (bpkg : build.Package) :
    ImporterFrom :=
  if bpkg.Goroot then gsu.grImp else gi.imp

/-- The import is the root pseudo-package "unsafe". -/
def build.Package.isRootUnsafe (bpkg : build.Package) : Bool :=
  bpkg.Goroot && bpkg.ImportPath == "unsafe"

/-- The calls made up to and including the delegation to the chosen strategy. -/
def gsuImporter.delegated (gi : gsuImporter) (gsu : gcSuggest) (bpkg : build.Package)
    (impPath srcDir : String) (mode : Int) : List Event :=
  [Event.profilePush impPath, Event.bldImport impPath srcDir 0,
    Event.strategy bpkg.Goroot (gi.chosen gsu bpkg).kind impPath srcDir mode]

/-- One call of `ImportFrom` in a history of the resolver: the request importer it is made
on, what the shared strategy (an object with a state of its own) answers at that time, and
the arguments. -/
structure ImportCall where
  gi : gsuImporter
  shared : String → String → Int → PkgPtr × ErrVal
  impPath : String
  srcDir : String
  mode : Int

/-- Running one call of a history. -/
def ImportCall.run (c : ImportCall) (gsu : gcSuggest) : Ran (PkgPtr × ErrVal) :=
  c.gi.ImportFrom { gsu with grImp := ⟨gsu.grImp.kind, c.shared⟩ } c.impPath c.srcDir c.mode

/-- The resolver after a history of `ImportFrom` calls. -/
def runCalls : gcSuggest → List ImportCall → gcSuggest
  | gsu, [] => gsu
  | gsu, c :: cs => runCalls (c.run gsu).gsu cs

/-- The entry a history call may add: it is a call for the key, classified as a root import,
for which the shared strategy returned the complete package `v` without error. -/
def ImportCall.Caches (c : ImportCall) (k : gsImpKey) (v : PkgPtr) : Prop :=
  c.impPath = k.path ∧ c.srcDir = k.dir ∧
  ∃ (bpkg : build.Package) (p : Package),
    c.gi.bld.Import k.path k.dir 0 = (bpkg, none) ∧ bpkg.Goroot = true ∧
    c.shared k.path k.dir c.mode = (some p, none) ∧ p.complete = true ∧ v = some p

/-- The event is a call of a resolution strategy. -/
def Event.isStrategy : Event → Bool
  | .strategy _ _ _ _ _ => true
  | _ => false

/-- The event is a call of the completion algorithm. -/
def Event.isSuggest : Event → Bool
  | .suggest _ _ => true
  | _ => false

/-- The event is a classification by the build context. -/
def Event.isClassify : Event → Bool
  | .bldImport _ _ _ => true
  | _ => false

/-- The calls of resolution strategies among the events. -/
def strategyCalls (evs : List Event) : List Event := evs.filter Event.isStrategy

/-! ## Concrete inputs -/

/-- Options with every flag off. -/
def exOpts : gsuOpts := ⟨false, false, false⟩

/-- A strategy behaviour that resolves every path to a complete package of that path. -/
def exResolve : String → String → Int → PkgPtr × ErrVal :=
  fun p _ _ => (some ⟨p, true⟩, none)

/-- A host built with the gc compiler. -/
def exHost : Host := ⟨"gc", exResolve, exResolve, exResolve⟩

/-- A build context: "unsafe" and "fmt" are root packages, "example.com/x" is a package
outside the root, nothing else is found. -/
def exBld : build.Context :=
  ⟨fun p _ _ =>
    if p == "unsafe" then (⟨true, "unsafe"⟩, none)
    else if p == "fmt" then (⟨true, "fmt"⟩, none)
    else if p == "example.com/x" then (⟨false, "example.com/x"⟩, none)
    else (⟨false, ""⟩, some ⟨"cannot find package"⟩)⟩

/-- A request importer on `exBld`. -/
def exGi : gsuImporter := ⟨exBld, ⟨.gcexportdata, exResolve⟩⟩

/-- A freshly constructed resolver. -/
def exGsu : gcSuggest := newGcSuggest exOpts exHost

/-- The call `ImportFrom("fmt", ".", 0)` on `exGi`. -/
def exCallFmt : ImportCall := ⟨exGi, exResolve, "fmt", ".", 0⟩

/-- The call `ImportFrom("example.com/x", ".", 0)` on `exGi`. -/
def exCallX : ImportCall := ⟨exGi, exResolve, "example.com/x", ".", 0⟩

/-- A strategy behaviour that returns a nil package with a nil error. -/
def exNil : String → String → Int → PkgPtr × ErrVal :=
  fun _ _ _ => (none, none)

/-- A strategy behaviour that fails. -/
def exFail : String → String → Int → PkgPtr × ErrVal :=
  fun _ _ _ => (none, some ⟨"no export data"⟩)

/-- A build context that finds nothing. -/
def exBldLost : build.Context :=
  ⟨fun _ _ _ => (⟨false, ""⟩, some ⟨"cannot find package"⟩)⟩

/-- A request importer whose build context finds nothing and whose strategy returns nil. -/
def exGiLost : gsuImporter := ⟨exBldLost, ⟨.gcexportdata, exNil⟩⟩

/-- The build context of another project: every import is found in its vendor directory,
outside the root. -/
def exBldVendor : build.Context :=
  ⟨fun p _ _ => (⟨false, "vendor/" ++ p⟩, none)⟩

/-- A request importer on `exBldVendor` whose strategy returns a nil package with a nil
error. -/
def exGiVendorNil : gsuImporter := ⟨exBldVendor, ⟨.gcexportdata, exNil⟩⟩

/-- A request importer on `exBld` whose strategy fails. -/
def exGiFail : gsuImporter := ⟨exBld, ⟨.gcexportdata, exFail⟩⟩

/-- A fresh resolver whose shared strategy returns a nil package with a nil error. -/
def exGsuNil : gcSuggest := newGcSuggest exOpts ⟨"gc", exResolve, exNil, exResolve⟩

/-- A build context in which every import is found in the vendor directory of the root. -/
def exBldRootVendor : build.Context :=
  ⟨fun p _ _ => (⟨true, "vendor/" ++ p⟩, none)⟩

/-- The call `ImportFrom("unsafe", ".", 0)` of a request under `exBldRootVendor`, for which
the shared strategy returns the complete vendored package. -/
def exCallVendored : ImportCall :=
  ⟨⟨exBldRootVendor, ⟨.gcexportdata, exResolve⟩⟩,
    fun p _ _ => (some ⟨"vendor/" ++ p, true⟩, none), "unsafe", ".", 0⟩

/-- A request importer on `exBldVendor` whose strategy resolves every path. -/
def exGiVendor : gsuImporter := ⟨exBldVendor, ⟨.source, exResolve⟩⟩

/-- Options that force the source strategy. -/
def exOptsSource : gsuOpts := ⟨false, false, true⟩

/-- A host built with another compiler. -/
def exHostGccgo : Host := ⟨"gccgo", exResolve, exResolve, exFail⟩

/-- A request context with the build context `exBld` and an empty file. -/
def exCtxEmpty : Ctx := ⟨⟨"main.go", .ret ([], none), 0⟩, .ret exBld⟩

/-- A request context with the build context `exBld` and a file of three bytes. -/
def exCtxMain : Ctx := ⟨⟨"main.go", .ret ([102, 109, 116], none), 3⟩, .ret exBld⟩

/-- A completion algorithm that resolves "fmt" and then faults. -/
def exAlgoFault : SuggestFn :=
  fun _ _ _ _ => .importFrom "fmt" "." 0 (fun _ => .panic "index out of range")

/-- A completion algorithm that resolves "fmt" and proposes one candidate. -/
def exAlgo : SuggestFn :=
  fun _ _ _ _ => .importFrom "fmt" "." 0 (fun _ => .ret [⟨"func", "Println", "func()"⟩] none)

/-! ## The paths of `ImportFrom` -/

theorem ImportFrom_hit (gi : gsuImporter) (gsu : gcSuggest) (impPath srcDir : String)
    (mode : Int) (p : PkgPtr) (h : gsu.cache ⟨impPath, srcDir⟩ = some p) :
    gi.ImportFrom gsu impPath srcDir mode = ⟨.ret (p, none), gsu, []⟩ := by
  simp [gsuImporter.ImportFrom, h]

theorem ImportFrom_classify_error (gi : gsuImporter) (gsu : gcSuggest)
    (impPath srcDir : String) (mode : Int) (bpkg : build.Package) (err : GoError)
    (h : gsu.cache ⟨impPath, srcDir⟩ = none)
    (hb : gi.bld.Import impPath srcDir 0 = (bpkg, some err)) :
    gi.ImportFrom gsu impPath srcDir mode =
      ⟨.ret (none, some err), gsu,
        [Event.profilePush impPath, Event.bldImport impPath srcDir 0]
          ++ gsu.dbgf "build.Import(%q, %q): %s\n" [impPath, srcDir, err.Error]
          ++ [Event.profilePop]⟩ := by
  simp [gsuImporter.ImportFrom, h, hb]

theorem ImportFrom_unsafe_root (gi : gsuImporter) (gsu : gcSuggest)
    (impPath srcDir : String) (mode : Int) (bpkg : build.Package)
    (h : gsu.cache ⟨impPath, srcDir⟩ = none)
    (hb : gi.bld.Import impPath srcDir 0 = (bpkg, none))
    (hu : bpkg.isRootUnsafe = true) :
    gi.ImportFrom gsu impPath srcDir mode =
      ⟨.ret (some types.Unsafe, none), gsu,
        [Event.profilePush impPath, Event.bldImport impPath srcDir 0, Event.profilePop]⟩ := by
  simp only [build.Package.isRootUnsafe] at hu
  simp [gsuImporter.ImportFrom, h, hb, hu]


theorem ImportFrom_strategy_nil (gi : gsuImporter) (gsu : gcSuggest)
    (impPath srcDir : String) (mode : Int) (bpkg : build.Package)
    (h : gsu.cache ⟨impPath, srcDir⟩ = none)
    (hb : gi.bld.Import impPath srcDir 0 = (bpkg, none))
    (hu : bpkg.isRootUnsafe = false)
    (hs : (gi.chosen gsu bpkg).ImportFrom impPath srcDir mode = (none, none)) :
    gi.ImportFrom gsu impPath srcDir mode =
      ⟨.panic "runtime error: invalid memory address or nil pointer dereference", gsu,
        gi.delegated gsu bpkg impPath srcDir mode ++ [Event.profilePop]⟩ := by
  simp only [build.Package.isRootUnsafe] at hu
  simp only [gsuImporter.chosen] at hs
  simp [gsuImporter.ImportFrom, gsuImporter.delegated, gsuImporter.chosen, h, hb, hu, hs]

theorem ImportFrom_strategy_ok (gi : gsuImporter) (gsu : gcSuggest)
    (impPath srcDir : String) (mode : Int) (bpkg : build.Package) (p : Package)
    (h : gsu.cache ⟨impPath, srcDir⟩ = none)
    (hb : gi.bld.Import impPath srcDir 0 = (bpkg, none))
    (hu : bpkg.isRootUnsafe = false)
    (hs : (gi.chosen gsu bpkg).ImportFrom impPath srcDir mode = (some p, none)) :
    gi.ImportFrom gsu impPath srcDir mode =
      ⟨.ret (some p, none),
        if p.complete && bpkg.Goroot then
          { gsu with cache := gsu.cache.set ⟨impPath, srcDir⟩ (some p) }
        else gsu,
        gi.delegated gsu bpkg impPath srcDir mode ++ [Event.profilePop]⟩ := by
  simp only [build.Package.isRootUnsafe] at hu
  simp only [gsuImporter.chosen] at hs
  by_cases hc : (p.complete && bpkg.Goroot) = true
  · have hg : bpkg.Goroot = true := by simp at hc; exact hc.2
    simp [gsuImporter.ImportFrom, gsuImporter.delegated, gsuImporter.chosen, h, hb, hu, hs, hc]
  · simp [gsuImporter.ImportFrom, gsuImporter.delegated, gsuImporter.chosen, h, hb, hu, hs, hc]

theorem ImportFrom_strategy_error (gi : gsuImporter) (gsu : gcSuggest)
    (impPath srcDir : String) (mode : Int) (bpkg : build.Package) (p : PkgPtr)
    (err : GoError)
    (h : gsu.cache ⟨impPath, srcDir⟩ = none)
    (hb : gi.bld.Import impPath srcDir 0 = (bpkg, none))
    (hu : bpkg.isRootUnsafe = false)
    (hs : (gi.chosen gsu bpkg).ImportFrom impPath srcDir mode = (p, some err)) :
    gi.ImportFrom gsu impPath srcDir mode =
      ⟨.ret (p, some err), gsu,
        gi.delegated gsu bpkg impPath srcDir mode
          ++ gsu.dbgf "%T.ImportFrom(%q, %q): %s\n"
            [(gi.chosen gsu bpkg).kind.typeName, impPath, srcDir, err.Error]
          ++ [Event.profilePop]⟩ := by
  simp only [build.Package.isRootUnsafe] at hu
  simp only [gsuImporter.chosen] at hs
  simp [gsuImporter.ImportFrom, gsuImporter.delegated, gsuImporter.chosen, h, hb, hu, hs]


/-! ## The calls of a delegation -/

theorem strategyCalls_append (a b : List Event) :
    strategyCalls (a ++ b) = strategyCalls a ++ strategyCalls b := by
  simp [strategyCalls]

theorem strategyCalls_dbgf (gsu : gcSuggest) (f : String) (a : List String) :
    strategyCalls (gsu.dbgf f a) = [] := by
  unfold gcSuggest.dbgf strategyCalls
  split <;> simp [Event.isStrategy]

theorem strategyCalls_delegated (gi : gsuImporter) (gsu : gcSuggest) (bpkg : build.Package)
    (impPath srcDir : String) (mode : Int) :
    strategyCalls (gi.delegated gsu bpkg impPath srcDir mode) =
      [Event.strategy bpkg.Goroot (gi.chosen gsu bpkg).kind impPath srcDir mode] := by
  simp [strategyCalls, gsuImporter.delegated, Event.isStrategy]

/-- On a miss that is classified and is not the root "unsafe", exactly one strategy call is
made: to the chosen strategy, with the arguments of the request. -/
theorem ImportFrom_delegate_calls (gi : gsuImporter) (gsu : gcSuggest)
    (impPath srcDir : String) (mode : Int) (bpkg : build.Package)
    (h : gsu.cache ⟨impPath, srcDir⟩ = none)
    (hb : gi.bld.Import impPath srcDir 0 = (bpkg, none))
    (hu : bpkg.isRootUnsafe = false) :
    strategyCalls (gi.ImportFrom gsu impPath srcDir mode).events =
      [Event.strategy bpkg.Goroot (gi.chosen gsu bpkg).kind impPath srcDir mode] := by
  rcases hs : (gi.chosen gsu bpkg).ImportFrom impPath srcDir mode with ⟨_ | p, _ | err⟩
  · rw [ImportFrom_strategy_nil gi gsu impPath srcDir mode bpkg h hb hu hs]
    simp [strategyCalls_append, strategyCalls_delegated]
    simp [strategyCalls, Event.isStrategy]
  · rw [ImportFrom_strategy_error gi gsu impPath srcDir mode bpkg none err h hb hu hs]
    simp [strategyCalls_append, strategyCalls_delegated, strategyCalls_dbgf]
    simp [strategyCalls, Event.isStrategy]
  · rw [ImportFrom_strategy_ok gi gsu impPath srcDir mode bpkg p h hb hu hs]
    simp [strategyCalls_append, strategyCalls_delegated]
    simp [strategyCalls, Event.isStrategy]
  · rw [ImportFrom_strategy_error gi gsu impPath srcDir mode bpkg (some p) err h hb hu hs]
    simp [strategyCalls_append, strategyCalls_delegated, strategyCalls_dbgf]
    simp [strategyCalls, Event.isStrategy]

/-- On such a miss the call returns the pair of the chosen strategy, unless that pair is a
nil package with a nil error. -/
theorem ImportFrom_delegate_out (gi : gsuImporter) (gsu : gcSuggest)
    (impPath srcDir : String) (mode : Int) (bpkg : build.Package)
    (h : gsu.cache ⟨impPath, srcDir⟩ = none)
    (hb : gi.bld.Import impPath srcDir 0 = (bpkg, none))
    (hu : bpkg.isRootUnsafe = false)
    (hne : (gi.chosen gsu bpkg).ImportFrom impPath srcDir mode ≠ (none, none)) :
    (gi.ImportFrom gsu impPath srcDir mode).out =
      .ret ((gi.chosen gsu bpkg).ImportFrom impPath srcDir mode) := by
  rcases hs : (gi.chosen gsu bpkg).ImportFrom impPath srcDir mode with ⟨_ | p, _ | err⟩
  · exact absurd hs hne
  · rw [ImportFrom_strategy_error gi gsu impPath srcDir mode bpkg none err h hb hu hs]
  · rw [ImportFrom_strategy_ok gi gsu impPath srcDir mode bpkg p h hb hu hs]
  · rw [ImportFrom_strategy_error gi gsu impPath srcDir mode bpkg (some p) err h hb hu hs]

/-! ## The cache across a call -/

/-- A call leaves the resolver as it was, or it adds the entry for its own, absent key: the
complete package the shared strategy returned without error for a root import. -/
theorem ImportFrom_step (gi : gsuImporter) (gsu : gcSuggest) (impPath srcDir : String)
    (mode : Int) :
    (gi.ImportFrom gsu impPath srcDir mode).gsu = gsu ∨
    ∃ (p : Package) (bpkg : build.Package),
      (gi.ImportFrom gsu impPath srcDir mode).gsu =
        { gsu with cache := gsu.cache.set ⟨impPath, srcDir⟩ (some p) } ∧
      (gi.ImportFrom gsu impPath srcDir mode).out = .ret (some p, none) ∧
      gsu.cache ⟨impPath, srcDir⟩ = none ∧
      gi.bld.Import impPath srcDir 0 = (bpkg, none) ∧
      bpkg.Goroot = true ∧ bpkg.ImportPath ≠ "unsafe" ∧
      gsu.grImp.ImportFrom impPath srcDir mode = (some p, none) ∧
      p.complete = true := by
  cases h : gsu.cache ⟨impPath, srcDir⟩ with
  | some q => left; rw [ImportFrom_hit gi gsu impPath srcDir mode q h]
  | none =>
    rcases hb : gi.bld.Import impPath srcDir 0 with ⟨bpkg, _ | err⟩
    swap
    · left; rw [ImportFrom_classify_error gi gsu impPath srcDir mode bpkg err h hb]
    cases hu : bpkg.isRootUnsafe with
    | true => left; rw [ImportFrom_unsafe_root gi gsu impPath srcDir mode bpkg h hb hu]
    | false =>
      rcases hs : (gi.chosen gsu bpkg).ImportFrom impPath srcDir mode with ⟨_ | p, _ | err⟩
      · left; rw [ImportFrom_strategy_nil gi gsu impPath srcDir mode bpkg h hb hu hs]
      · left; rw [ImportFrom_strategy_error gi gsu impPath srcDir mode bpkg none err h hb hu hs]
      · rw [ImportFrom_strategy_ok gi gsu impPath srcDir mode bpkg p h hb hu hs]
        by_cases hc : (p.complete && bpkg.Goroot) = true
        · right
          have hc2 : p.complete = true ∧ bpkg.Goroot = true := by simpa using hc
          refine ⟨p, bpkg, by simp [hc], rfl, rfl, rfl, hc2.2, ?_, ?_, hc2.1⟩
          · intro hp
            simp [build.Package.isRootUnsafe, hc2.2, hp] at hu
          · simpa [gsuImporter.chosen, hc2.2] using hs
        · left; simp [hc]
      · left; rw [ImportFrom_strategy_error gi gsu impPath srcDir mode bpkg (some p) err h hb hu hs]


theorem ImportCall.run_cache (c : ImportCall) (gsu : gcSuggest) (k : gsImpKey) (v : PkgPtr)
    (h : (c.run gsu).gsu.cache k = some v) : gsu.cache k = some v ∨ c.Caches k v := by
  unfold ImportCall.run at h
  rcases ImportFrom_step c.gi { gsu with grImp := ⟨gsu.grImp.kind, c.shared⟩ }
      c.impPath c.srcDir c.mode with h1 | ⟨p, bpkg, h1, _, _, hb, hg, _, hs, hc⟩
  · rw [h1] at h; exact Or.inl h
  · rw [h1] at h
    simp only [Cache.set] at h
    by_cases hk : k = ⟨c.impPath, c.srcDir⟩
    · right
      simp only [hk, if_true, Option.some.injEq] at h
      subst hk
      exact ⟨rfl, rfl, bpkg, p, hb, hg, hs, hc, h.symm⟩
    · left; simpa [hk] using h

theorem runCalls_cache (calls : List ImportCall) :
    ∀ (gsu : gcSuggest) (k : gsImpKey) (v : PkgPtr), (runCalls gsu calls).cache k = some v →
      gsu.cache k = some v ∨ ∃ c ∈ calls, c.Caches k v := by
  induction calls with
  | nil => intro gsu k v h; exact Or.inl h
  | cons c cs ih =>
    intro gsu k v h
    rcases ih (c.run gsu).gsu k v h with h1 | ⟨c2, hm, h2⟩
    · rcases c.run_cache gsu k v h1 with h3 | h3
      · exact Or.inl h3
      · exact Or.inr ⟨c, List.mem_cons_self _ _, h3⟩
    · exact Or.inr ⟨c2, List.mem_cons_of_mem _ hm, h2⟩

/-- An entry of the cache survives every call unchanged. -/
theorem ImportFrom_keeps (gi : gsuImporter) (gsu : gcSuggest) (impPath srcDir : String)
    (mode : Int) (k : gsImpKey) (v : PkgPtr) (h : gsu.cache k = some v) :
    (gi.ImportFrom gsu impPath srcDir mode).gsu.cache k = some v := by
  rcases ImportFrom_step gi gsu impPath srcDir mode with h1 | ⟨p, _, h1, _, h0, _⟩
  · rw [h1]; exact h
  · rw [h1]
    have hk : k ≠ ⟨impPath, srcDir⟩ := by
      intro hk; rw [hk, h0] at h; cases h
    simp [Cache.set, hk, h]

theorem runCalls_keeps (calls : List ImportCall) :
    ∀ (gsu : gcSuggest) (k : gsImpKey) (v : PkgPtr), gsu.cache k = some v →
      (runCalls gsu calls).cache k = some v := by
  induction calls with
  | nil => intro gsu k v h; exact h
  | cons c cs ih =>
    intro gsu k v h
    exact ih _ k v (ImportFrom_keeps c.gi _ c.impPath c.srcDir c.mode k v h)


/-- A call classified as outside the root leaves the resolver as it was. -/
theorem ImportFrom_non_root_frame (gi : gsuImporter) (gsu : gcSuggest)
    (impPath srcDir : String) (mode : Int) (bpkg : build.Package)
    (hb : gi.bld.Import impPath srcDir 0 = (bpkg, none))
    (hg : bpkg.Goroot = false) :
    (gi.ImportFrom gsu impPath srcDir mode).gsu = gsu := by
  rcases ImportFrom_step gi gsu impPath srcDir mode with h1 | ⟨p, b2, _, _, _, hb2, hg2, _⟩
  · exact h1
  · rw [hb] at hb2
    cases hb2
    rw [hg] at hg2
    cases hg2

/-! ## Stability of the cache -/

/-- C1. Per call: `ImportFrom` leaves the resolver, and so the cache, as it was, or the cache
afterwards is the cache before with the one entry `(impPath, srcDir) -> p` set, and then the
key was absent, the build context classified the import without error as a root package
(not "unsafe"), and the shared strategy returned `p`, complete, with a nil error, which is
also what the call returns. Consequently, in every state reached from `init()` (the empty
cache, whatever the options and the mutex) by a history of `ImportFrom` calls, every entry
of the cache was put there by a call of the history for that key, classified as root, whose
shared strategy returned that complete package without error. -/
theorem cache_stability :
    (∀ (gi : gsuImporter) (gsu : gcSuggest) (impPath srcDir : String) (mode : Int),
      (gi.ImportFrom gsu impPath srcDir mode).gsu = gsu ∨
      ∃ (p : Package) (bpkg : build.Package),
        (gi.ImportFrom gsu impPath srcDir mode).gsu =
          { gsu with cache := gsu.cache.set ⟨impPath, srcDir⟩ (some p) } ∧
        (gi.ImportFrom gsu impPath srcDir mode).out = .ret (some p, none) ∧
        gsu.cache ⟨impPath, srcDir⟩ = none ∧
        gi.bld.Import impPath srcDir 0 = (bpkg, none) ∧
        bpkg.Goroot = true ∧ bpkg.ImportPath ≠ "unsafe" ∧
        gsu.grImp.ImportFrom impPath srcDir mode = (some p, none) ∧
        p.complete = true) ∧
    (∀ (o : gsuOpts) (locked : Bool) (host : Host) (calls : List ImportCall) (k : gsImpKey)
        (v : PkgPtr),
      (runCalls (gcSuggest.init o locked host) calls).cache k = some v →
        ∃ c ∈ calls, c.Caches k v) := by
  refine ⟨ImportFrom_step, ?_⟩
  intro o locked host calls k v h
  rcases runCalls_cache calls (gcSuggest.init o locked host) k v h with h0 | h1
  · simp [gcSuggest.init] at h0
  · exact h1

/-- C1 at a concrete history: after `ImportFrom("fmt", ".", 0)` on a fresh resolver the cache
holds the package of "fmt", and the history accounts for it. -/
theorem cache_stability_witness :
    (runCalls (newGcSuggest exOpts exHost) [exCallFmt]).cache ⟨"fmt", "."⟩
        = some (some ⟨"fmt", true⟩) ∧
      ∃ c ∈ [exCallFmt], c.Caches ⟨"fmt", "."⟩ (some ⟨"fmt", true⟩) :=
  ⟨by decide, cache_stability.2 exOpts false exHost [exCallFmt] ⟨"fmt", "."⟩
    (some ⟨"fmt", true⟩) (by decide)⟩

/-! ## Cache hits -/

/-- C2. If the key is absent, the build context classifies the import as a root package other
than "unsafe", and the shared strategy returns the complete package `p` with a nil error,
then the call returns `(p, nil)`; and after any history of further `ImportFrom` calls, on
any resolver state that has the resulting cache (whatever its options and shared strategy),
every `ImportFrom` for the same key on any request importer and with any mode returns
`(p, nil)`, leaves the resolver unchanged and makes no call at all to a build context, a
strategy, the profiler or the logger. -/
theorem cache_hit_persistence (gi : gsuImporter) (gsu : gcSuggest) (impPath srcDir : String)
    (mode : Int) (bpkg : build.Package) (p : Package)
    (h : gsu.cache ⟨impPath, srcDir⟩ = none)
    (hb : gi.bld.Import impPath srcDir 0 = (bpkg, none))
    (hg : bpkg.Goroot = true) (hu : bpkg.ImportPath ≠ "unsafe")
    (hs : gsu.grImp.ImportFrom impPath srcDir mode = (some p, none))
    (hc : p.complete = true) :
    (gi.ImportFrom gsu impPath srcDir mode).out = .ret (some p, none) ∧
    ∀ (calls : List ImportCall) (gsu2 : gcSuggest) (gi2 : gsuImporter) (mode2 : Int),
      gsu2.cache = (runCalls (gi.ImportFrom gsu impPath srcDir mode).gsu calls).cache →
      gi2.ImportFrom gsu2 impPath srcDir mode2 = ⟨.ret (some p, none), gsu2, []⟩ := by
  have hun : bpkg.isRootUnsafe = false := by
    simp [build.Package.isRootUnsafe, hu]
  have hch : (gi.chosen gsu bpkg).ImportFrom impPath srcDir mode = (some p, none) := by
    simpa [gsuImporter.chosen, hg] using hs
  have hrun := ImportFrom_strategy_ok gi gsu impPath srcDir mode bpkg p h hb hun hch
  refine ⟨by rw [hrun], ?_⟩
  intro calls gsu2 gi2 mode2 h2
  apply ImportFrom_hit
  rw [h2]
  apply runCalls_keeps
  rw [hrun]
  simp [hc, hg, Cache.set]

/-- C2 at a concrete input: "fmt" is cached by the first call; after two further calls for
other keys, a request whose build context finds nothing and whose strategy returns nil still
gets the cached package, with no call to any collaborator. -/
theorem cache_hit_persistence_witness :
    (exGi.ImportFrom exGsu "fmt" "." 0).out = .ret (some ⟨"fmt", true⟩, none) ∧
    exGiLost.ImportFrom
        (runCalls (exGi.ImportFrom exGsu "fmt" "." 0).gsu [exCallX, exCallVendored])
        "fmt" "." 7
      = ⟨.ret (some ⟨"fmt", true⟩, none),
          runCalls (exGi.ImportFrom exGsu "fmt" "." 0).gsu [exCallX, exCallVendored], []⟩ :=
  have t := cache_hit_persistence exGi exGsu "fmt" "." 0 ⟨true, "fmt"⟩ ⟨"fmt", true⟩
    (by decide) (by decide) (by decide) (by decide) (by decide) (by decide)
  ⟨t.1, t.2 [exCallX, exCallVendored] _ exGiLost 7 rfl⟩

/-! ## Imports outside the root -/

/-- C3, as stated, fails: the key is absent, both build contexts classify the import as
outside the root, the first call leaves the cache as it was, and the second call, whose
request strategy returns a nil package with a nil error, panics instead of returning that
result. -/
theorem non_root_second_call_counterexample :
    exGsu.cache ⟨"example.com/x", "."⟩ = none ∧
    exGi.bld.Import "example.com/x" "." 0 = (⟨false, "example.com/x"⟩, none) ∧
    exGiVendorNil.bld.Import "example.com/x" "." 0
      = (⟨false, "vendor/example.com/x"⟩, none) ∧
    (exGiVendorNil.ImportFrom (exGi.ImportFrom exGsu "example.com/x" "." 0).gsu
        "example.com/x" "." 0).out
      = .panic "runtime error: invalid memory address or nil pointer dereference" ∧
    (exGiVendorNil.ImportFrom (exGi.ImportFrom exGsu "example.com/x" "." 0).gsu
        "example.com/x" "." 0).out
      ≠ .ret (exGiVendorNil.imp.ImportFrom "example.com/x" "." 0) := by
  decide

/-- C3, amended. If the key is absent and two build contexts classify the import as outside
the root, then the first call leaves the resolver, and so the cache, exactly as it was
whatever its request strategy returns; the second call, made on the resulting state, is not
served from the cache: each of the two calls makes exactly one strategy call, to the request
strategy of its own request, and returns the pair that strategy returned whenever that pair
is not a nil package with a nil error; the second call too leaves the resolver as it was. -/
theorem non_root_no_cache (gi1 gi2 : gsuImporter) (gsu : gcSuggest)
    (impPath srcDir : String) (mode1 mode2 : Int) (b1 b2 : build.Package)
    (h : gsu.cache ⟨impPath, srcDir⟩ = none)
    (hb1 : gi1.bld.Import impPath srcDir 0 = (b1, none)) (hg1 : b1.Goroot = false)
    (hb2 : gi2.bld.Import impPath srcDir 0 = (b2, none)) (hg2 : b2.Goroot = false) :
    (gi1.ImportFrom gsu impPath srcDir mode1).gsu = gsu ∧
    strategyCalls (gi1.ImportFrom gsu impPath srcDir mode1).events
      = [Event.strategy false gi1.imp.kind impPath srcDir mode1] ∧
    (gi1.imp.ImportFrom impPath srcDir mode1 ≠ (none, none) →
      (gi1.ImportFrom gsu impPath srcDir mode1).out
        = .ret (gi1.imp.ImportFrom impPath srcDir mode1)) ∧
    (gi2.ImportFrom (gi1.ImportFrom gsu impPath srcDir mode1).gsu impPath srcDir mode2).gsu
      = gsu ∧
    strategyCalls
        (gi2.ImportFrom (gi1.ImportFrom gsu impPath srcDir mode1).gsu impPath srcDir
          mode2).events
      = [Event.strategy false gi2.imp.kind impPath srcDir mode2] ∧
    (gi2.imp.ImportFrom impPath srcDir mode2 ≠ (none, none) →
      (gi2.ImportFrom (gi1.ImportFrom gsu impPath srcDir mode1).gsu impPath srcDir
          mode2).out
        = .ret (gi2.imp.ImportFrom impPath srcDir mode2)) := by
  have hf1 := ImportFrom_non_root_frame gi1 gsu impPath srcDir mode1 b1 hb1 hg1
  have hu1 : b1.isRootUnsafe = false := by simp [build.Package.isRootUnsafe, hg1]
  have hu2 : b2.isRootUnsafe = false := by simp [build.Package.isRootUnsafe, hg2]
  have hc1 : gi1.chosen gsu b1 = gi1.imp := by simp [gsuImporter.chosen, hg1]
  have hc2 : gi2.chosen gsu b2 = gi2.imp := by simp [gsuImporter.chosen, hg2]
  have e1 := ImportFrom_delegate_calls gi1 gsu impPath srcDir mode1 b1 h hb1 hu1
  have e2 := ImportFrom_delegate_calls gi2 gsu impPath srcDir mode2 b2 h hb2 hu2
  rw [hc1, hg1] at e1
  rw [hc2, hg2] at e2
  rw [hf1]
  refine ⟨rfl, e1, ?_, ImportFrom_non_root_frame gi2 gsu impPath srcDir mode2 b2 hb2 hg2,
    e2, ?_⟩
  · intro hne
    have := ImportFrom_delegate_out gi1 gsu impPath srcDir mode1 b1 h hb1 hu1
      (by rw [hc1]; exact hne)
    rw [hc1] at this
    exact this
  · intro hne
    have := ImportFrom_delegate_out gi2 gsu impPath srcDir mode2 b2 h hb2 hu2
      (by rw [hc2]; exact hne)
    rw [hc2] at this
    exact this


/-- C3, amended, at a concrete input: "example.com/x" is resolved for two requests with
different build contexts; the second request is answered by its own strategy and the cache
stays empty at the key. -/
theorem non_root_no_cache_witness :
    (exGiVendor.ImportFrom (exGi.ImportFrom exGsu "example.com/x" "." 0).gsu
        "example.com/x" "." 0).gsu = exGsu ∧
    strategyCalls
        (exGiVendor.ImportFrom (exGi.ImportFrom exGsu "example.com/x" "." 0).gsu
          "example.com/x" "." 0).events
      = [Event.strategy false .source "example.com/x" "." 0] ∧
    (exGiVendor.ImportFrom (exGi.ImportFrom exGsu "example.com/x" "." 0).gsu
        "example.com/x" "." 0).out
      = .ret (some ⟨"example.com/x", true⟩, none) :=
  have t := non_root_no_cache exGi exGiVendor exGsu "example.com/x" "." 0 0
    ⟨false, "example.com/x"⟩ ⟨false, "vendor/example.com/x"⟩
    (by decide) (by decide) (by decide) (by decide) (by decide)
  ⟨t.2.2.2.1, t.2.2.2.2.1, t.2.2.2.2.2 (by decide)⟩

/-! ## Failures -/

/-- C4. Whenever `ImportFrom` returns a non-nil error the resolver, and so the cache, is
exactly as before the call. On a miss where the classification by the build context fails,
the call returns a nil package with that same error and calls no strategy. On a miss where
the classification succeeds, the import is not the root "unsafe" (so that a strategy is
chosen) and the chosen strategy returns an error, the call returns the pair of the strategy,
with that same error. -/
theorem failure_atomicity (gi : gsuImporter) (gsu : gcSuggest) (impPath srcDir : String)
    (mode : Int) :
    (∀ (p : PkgPtr) (err : GoError),
      (gi.ImportFrom gsu impPath srcDir mode).out = .ret (p, some err) →
      (gi.ImportFrom gsu impPath srcDir mode).gsu = gsu) ∧
    (∀ (bpkg : build.Package) (err : GoError),
      gsu.cache ⟨impPath, srcDir⟩ = none →
      gi.bld.Import impPath srcDir 0 = (bpkg, some err) →
      (gi.ImportFrom gsu impPath srcDir mode).out = .ret (none, some err) ∧
      strategyCalls (gi.ImportFrom gsu impPath srcDir mode).events = [] ∧
      (gi.ImportFrom gsu impPath srcDir mode).gsu = gsu) ∧
    (∀ (bpkg : build.Package) (p : PkgPtr) (err : GoError),
      gsu.cache ⟨impPath, srcDir⟩ = none →
      gi.bld.Import impPath srcDir 0 = (bpkg, none) →
      (bpkg.Goroot && bpkg.ImportPath == "unsafe") = false →
      (if bpkg.Goroot then gsu.grImp else gi.imp).ImportFrom impPath srcDir mode
        = (p, some err) →
      (gi.ImportFrom gsu impPath srcDir mode).out = .ret (p, some err) ∧
      (gi.ImportFrom gsu impPath srcDir mode).gsu = gsu) := by
  refine ⟨?_, ?_, ?_⟩
  · intro p err hout
    rcases ImportFrom_step gi gsu impPath srcDir mode with h1 | ⟨q, _, _, h2, _⟩
    · exact h1
    · rw [h2] at hout
      cases hout
  · intro bpkg err h hb
    rw [ImportFrom_classify_error gi gsu impPath srcDir mode bpkg err h hb]
    refine ⟨rfl, ?_, rfl⟩
    simp only [strategyCalls_append, strategyCalls_dbgf]
    simp [strategyCalls, Event.isStrategy]
  · intro bpkg p err h hb hu hs
    rw [ImportFrom_strategy_error gi gsu impPath srcDir mode bpkg p err h hb hu hs]
    exact ⟨rfl, rfl⟩

/-- C4 at concrete inputs: an import the build context cannot find, and a root import for
which the strategy fails. -/
theorem failure_atomicity_witness :
    ((exGi.ImportFrom exGsu "nosuch" "." 0).out = .ret (none, some ⟨"cannot find package"⟩) ∧
      strategyCalls (exGi.ImportFrom exGsu "nosuch" "." 0).events = [] ∧
      (exGi.ImportFrom exGsu "nosuch" "." 0).gsu = exGsu) ∧
    ((exGiFail.ImportFrom exGsu "example.com/x" "." 0).out
        = .ret (none, some ⟨"no export data"⟩) ∧
      (exGiFail.ImportFrom exGsu "example.com/x" "." 0).gsu = exGsu) :=
  ⟨(failure_atomicity exGi exGsu "nosuch" "." 0).2.1 ⟨false, ""⟩ ⟨"cannot find package"⟩
      (by decide) (by decide),
    (failure_atomicity exGiFail exGsu "example.com/x" "." 0).2.2 ⟨false, "example.com/x"⟩
      none ⟨"no export data"⟩ (by decide) (by decide) (by decide) (by decide)⟩


/-! ## The pseudo-package "unsafe" -/

/-- C5, as stated, fails: the result depends on the cache. After a request under whose build
context "unsafe" was a vendored root package, cached as such, a request whose build context
classifies `("unsafe", ".")` as the root pseudo-package "unsafe" is served the cached package
and not `types.Unsafe`, without consulting its build context. -/
theorem unsafe_cached_counterexample :
    exGi.bld.Import "unsafe" "." 0 = (⟨true, "unsafe"⟩, none) ∧
    (exGi.ImportFrom (runCalls exGsu [exCallVendored]) "unsafe" "." 0).out
      = .ret (some ⟨"vendor/unsafe", true⟩, none) ∧
    (exGi.ImportFrom (runCalls exGsu [exCallVendored]) "unsafe" "." 0).out
      ≠ .ret (some types.Unsafe, none) ∧
    (exGi.ImportFrom (runCalls exGsu [exCallVendored]) "unsafe" "." 0).events = [] := by
  decide

/-- C5, amended. For every resolver state whose cache does not hold the key
`(impPath, srcDir)`, every mode, and every build context that classifies the import without
error as the root package with canonical import path "unsafe", `ImportFrom` returns
`types.Unsafe` with a nil error, leaves the resolver, and so the cache, exactly as it was,
and calls no strategy: the only calls are the profiler push, the classification and the
profiler pop. -/
theorem unsafe_singleton (gi : gsuImporter) (gsu : gcSuggest) (impPath srcDir : String)
    (mode : Int) (bpkg : build.Package)
    (h : gsu.cache ⟨impPath, srcDir⟩ = none)
    (hb : gi.bld.Import impPath srcDir 0 = (bpkg, none))
    (hg : bpkg.Goroot = true) (hp : bpkg.ImportPath = "unsafe") :
    (gi.ImportFrom gsu impPath srcDir mode).out = .ret (some types.Unsafe, none) ∧
    (gi.ImportFrom gsu impPath srcDir mode).gsu = gsu ∧
    strategyCalls (gi.ImportFrom gsu impPath srcDir mode).events = [] ∧
    (gi.ImportFrom gsu impPath srcDir mode).events
      = [Event.profilePush impPath, Event.bldImport impPath srcDir 0, Event.profilePop] := by
  have hu : bpkg.isRootUnsafe = true := by simp [build.Package.isRootUnsafe, hg, hp]
  rw [ImportFrom_unsafe_root gi gsu impPath srcDir mode bpkg h hb hu]
  refine ⟨rfl, rfl, ?_, rfl⟩
  simp [strategyCalls, Event.isStrategy]

/-- C5, amended, at a concrete input: "unsafe" on a fresh resolver, with a request strategy
and a shared strategy that would return nil. -/
theorem unsafe_singleton_witness :
    (exGiVendorNil.imp.ImportFrom "unsafe" "." 0 = (none, none) ∧
      exGsuNil.grImp.ImportFrom "unsafe" "." 0 = (none, none)) ∧
    ((⟨exBld, exGiVendorNil.imp⟩ : gsuImporter).ImportFrom exGsuNil "unsafe" "." 0).out
      = .ret (some types.Unsafe, none) ∧
    ((⟨exBld, exGiVendorNil.imp⟩ : gsuImporter).ImportFrom exGsuNil "unsafe" "." 0).gsu
      = exGsuNil ∧
    strategyCalls
      ((⟨exBld, exGiVendorNil.imp⟩ : gsuImporter).ImportFrom exGsuNil "unsafe" "." 0).events
      = [] :=
  have t := unsafe_singleton ⟨exBld, exGiVendorNil.imp⟩ exGsuNil "unsafe" "." 0
    ⟨true, "unsafe"⟩ (by decide) (by decide) (by decide) (by decide)
  ⟨by decide, t.1, t.2.1, t.2.2.1⟩

/-! ## Routing -/

/-- C6, as stated, fails: on a miss for the root package "fmt" the shared strategy returns a
nil package with a nil error, and `ImportFrom` panics on `p.Complete()` instead of returning
that pair. -/
theorem strategy_nil_pair_counterexample :
    exGsuNil.cache ⟨"fmt", "."⟩ = none ∧
    exGi.bld.Import "fmt" "." 0 = (⟨true, "fmt"⟩, none) ∧
    exGsuNil.grImp.ImportFrom "fmt" "." 0 = (none, none) ∧
    (exGi.ImportFrom exGsuNil "fmt" "." 0).out
      = .panic "runtime error: invalid memory address or nil pointer dereference" ∧
    (exGi.ImportFrom exGsuNil "fmt" "." 0).out
      ≠ .ret (exGsuNil.grImp.ImportFrom "fmt" "." 0) := by
  decide

/-- C6, amended. On a miss that the build context classifies without error and that is not
the root "unsafe": exactly one strategy call is made, with the arguments
`(impPath, srcDir, mode)` of the request, to the shared strategy `gsu.grImp` when the import
is a root package and to the request strategy `gi.imp` otherwise; and whenever the pair
returned by that strategy is not a nil package with a nil error, it is exactly the pair
`ImportFrom` returns. -/
theorem strategy_routing (gi : gsuImporter) (gsu : gcSuggest) (impPath srcDir : String)
    (mode : Int) (bpkg : build.Package)
    (h : gsu.cache ⟨impPath, srcDir⟩ = none)
    (hb : gi.bld.Import impPath srcDir 0 = (bpkg, none))
    (hu : (bpkg.Goroot && bpkg.ImportPath == "unsafe") = false) :
    (bpkg.Goroot = true →
      strategyCalls (gi.ImportFrom gsu impPath srcDir mode).events
        = [Event.strategy true gsu.grImp.kind impPath srcDir mode] ∧
      (gsu.grImp.ImportFrom impPath srcDir mode ≠ (none, none) →
        (gi.ImportFrom gsu impPath srcDir mode).out
          = .ret (gsu.grImp.ImportFrom impPath srcDir mode))) ∧
    (bpkg.Goroot = false →
      strategyCalls (gi.ImportFrom gsu impPath srcDir mode).events
        = [Event.strategy false gi.imp.kind impPath srcDir mode] ∧
      (gi.imp.ImportFrom impPath srcDir mode ≠ (none, none) →
        (gi.ImportFrom gsu impPath srcDir mode).out
          = .ret (gi.imp.ImportFrom impPath srcDir mode))) := by
  have e := ImportFrom_delegate_calls gi gsu impPath srcDir mode bpkg h hb hu
  constructor
  · intro hg
    have hc : gi.chosen gsu bpkg = gsu.grImp := by simp [gsuImporter.chosen, hg]
    rw [hc, hg] at e
    refine ⟨e, fun hne => ?_⟩
    have := ImportFrom_delegate_out gi gsu impPath srcDir mode bpkg h hb hu
      (by rw [hc]; exact hne)
    rw [hc] at this
    exact this
  · intro hg
    have hc : gi.chosen gsu bpkg = gi.imp := by simp [gsuImporter.chosen, hg]
    rw [hc, hg] at e
    refine ⟨e, fun hne => ?_⟩
    have := ImportFrom_delegate_out gi gsu impPath srcDir mode bpkg h hb hu
      (by rw [hc]; exact hne)
    rw [hc] at this
    exact this

/-- C6, amended, at concrete inputs: the root import "fmt" goes to the shared strategy (made
by the gc constructor), the import "example.com/x" to the failing request strategy. -/
theorem strategy_routing_witness :
    (strategyCalls (exGiFail.ImportFrom exGsu "fmt" "." 0).events
        = [Event.strategy true .gcexportdata "fmt" "." 0] ∧
      (exGiFail.ImportFrom exGsu "fmt" "." 0).out = .ret (some ⟨"fmt", true⟩, none)) ∧
    (strategyCalls (exGiFail.ImportFrom exGsu "example.com/x" "." 0).events
        = [Event.strategy false .gcexportdata "example.com/x" "." 0] ∧
      (exGiFail.ImportFrom exGsu "example.com/x" "." 0).out
        = .ret (none, some ⟨"no export data"⟩)) :=
  have t1 := (strategy_routing exGiFail exGsu "fmt" "." 0 ⟨true, "fmt"⟩
    (by decide) (by decide) (by decide)).1 (by decide)
  have t2 := (strategy_routing exGiFail exGsu "example.com/x" "." 0
    ⟨false, "example.com/x"⟩ (by decide) (by decide) (by decide)).2 (by decide)
  ⟨⟨t1.1, t1.2 (by decide)⟩, ⟨t2.1, t2.2 (by decide)⟩⟩


/-! ## Selection of the strategy -/

/-- The strategy calls of any `ImportFrom`: none, or the one call to the chosen strategy. -/
theorem ImportFrom_strategyCalls (gi : gsuImporter) (gsu : gcSuggest)
    (impPath srcDir : String) (mode : Int) :
    strategyCalls (gi.ImportFrom gsu impPath srcDir mode).events = [] ∨
    ∃ bpkg : build.Package,
      strategyCalls (gi.ImportFrom gsu impPath srcDir mode).events
        = [Event.strategy bpkg.Goroot (gi.chosen gsu bpkg).kind impPath srcDir mode] := by
  cases h : gsu.cache ⟨impPath, srcDir⟩ with
  | some q =>
    left; rw [ImportFrom_hit gi gsu impPath srcDir mode q h]; rfl
  | none =>
    rcases hb : gi.bld.Import impPath srcDir 0 with ⟨bpkg, _ | err⟩
    swap
    · left
      rw [ImportFrom_classify_error gi gsu impPath srcDir mode bpkg err h hb]
      simp only [strategyCalls_append, strategyCalls_dbgf]
      simp [strategyCalls, Event.isStrategy]
    cases hu : bpkg.isRootUnsafe with
    | true =>
      left
      rw [ImportFrom_unsafe_root gi gsu impPath srcDir mode bpkg h hb hu]
      simp [strategyCalls, Event.isStrategy]
    | false =>
      exact Or.inr ⟨bpkg, ImportFrom_delegate_calls gi gsu impPath srcDir mode bpkg h hb hu⟩

theorem mem_strategyCalls (e : Event) (evs : List Event) (h : e ∈ evs)
    (hs : e.isStrategy = true) : e ∈ strategyCalls evs := by
  simp [strategyCalls, h, hs]

/-- C7. First match wins: with `Source` set `newImporter` gives the source strategy whatever
the compiler, otherwise the strategy reading compiled export data when the compiler is "gc",
otherwise the default one. Hence with `Source` set the shared strategy installed at
construction and the strategy of every request importer built by `importer(mx)` are
source-based, and every strategy call made by an `ImportFrom` of such a request importer on
the resolver, in any state of its cache and mutex, is a call to a source-based strategy. -/
theorem strategy_selection :
    (∀ (o : gsuOpts) (host : Host), o.Source = true →
      gcSuggest.newImporter o host = ⟨.source, host.sourceImporter⟩) ∧
    (∀ (o : gsuOpts) (host : Host), o.Source = false → host.Compiler = "gc" →
      gcSuggest.newImporter o host = ⟨.gcexportdata, host.gcexportdataImporter⟩) ∧
    (∀ (o : gsuOpts) (host : Host), o.Source = false → host.Compiler ≠ "gc" →
      gcSuggest.newImporter o host = ⟨.hostDefault, host.defaultImporter⟩) ∧
    (∀ (o : gsuOpts) (host host2 : Host) (mx : Ctx) (cache : Cache) (locked : Bool)
        (gi : gsuImporter),
      o.Source = true →
      (({ newGcSuggest o host with cache := cache, locked := locked } : gcSuggest).importer
        host2 mx).1 = .ret gi →
      (newGcSuggest o host).grImp.kind = .source ∧ gi.imp.kind = .source ∧
      ∀ (impPath srcDir : String) (mode : Int) (shared : Bool) (kind : StrategyKind)
          (p d : String) (m : Int),
        Event.strategy shared kind p d m ∈
          (gi.ImportFrom { newGcSuggest o host with cache := cache, locked := locked }
            impPath srcDir mode).events →
        kind = .source) := by
  refine ⟨?_, ?_, ?_, ?_⟩
  · intro o host h; simp [gcSuggest.newImporter, h]
  · intro o host h hc; simp [gcSuggest.newImporter, h, hc]
  · intro o host h hc; simp [gcSuggest.newImporter, h, hc]
  · intro o host host2 mx cache locked gi h hgi
    have hgr : (newGcSuggest o host).grImp.kind = .source := by
      simp [newGcSuggest, gcSuggest.init, gcSuggest.newImporter, h]
    have himp : gi.imp.kind = .source := by
      unfold gcSuggest.importer at hgi
      cases hbc : mx.BuildContext with
      | panic v => rw [hbc] at hgi; cases hgi
      | ret bld =>
        rw [hbc] at hgi
        simp only [Outcome.ret.injEq] at hgi
        rw [← hgi]
        simp [newGcSuggest, gcSuggest.init, gcSuggest.newImporter, h]
    refine ⟨hgr, himp, ?_⟩
    intro impPath srcDir mode shared kind p d m hmem
    have hm := mem_strategyCalls _ _ hmem rfl
    rcases ImportFrom_strategyCalls gi
        { newGcSuggest o host with cache := cache, locked := locked } impPath srcDir mode
      with h0 | ⟨bpkg, h1⟩
    · rw [h0] at hm; cases hm
    · rw [h1] at hm
      simp only [List.mem_singleton, Event.strategy.injEq] at hm
      rw [hm.2.1]
      unfold gsuImporter.chosen
      split
      · exact hgr
      · exact himp

/-- C7 at concrete inputs: with `Source` set and the gc compiler the shared strategy and the
request strategy are source-based, and the root import "fmt" is delegated to a source-based
strategy. -/
theorem strategy_selection_witness :
    gcSuggest.newImporter exOptsSource exHost = ⟨.source, exHost.sourceImporter⟩ ∧
    gcSuggest.newImporter exOpts exHost = ⟨.gcexportdata, exHost.gcexportdataImporter⟩ ∧
    gcSuggest.newImporter exOpts exHostGccgo = ⟨.hostDefault, exHostGccgo.defaultImporter⟩ ∧
    (newGcSuggest exOptsSource exHost).grImp.kind = .source ∧
    (∀ (shared : Bool) (kind : StrategyKind) (p d : String) (m : Int),
      Event.strategy shared kind p d m ∈
        ((⟨exBld, ⟨.source, exHostGccgo.sourceImporter⟩⟩ : gsuImporter).ImportFrom
          { newGcSuggest exOptsSource exHost with cache := fun _ => none, locked := true }
          "fmt" "." 0).events →
      kind = .source) :=
  have t := strategy_selection.2.2.2 exOptsSource exHost exHostGccgo exCtxEmpty
    (fun _ => none) true ⟨exBld, ⟨.source, exHostGccgo.sourceImporter⟩⟩ (by decide) rfl
  ⟨strategy_selection.1 exOptsSource exHost (by decide),
    strategy_selection.2.1 exOpts exHost (by decide) (by decide),
    strategy_selection.2.2.1 exOpts exHostGccgo (by decide) (by decide),
    t.1, t.2.2 "fmt" "." 0⟩


/-! ## The adapter `candidates` -/

/-- With the mutex free, `candidates` takes it, runs the body, and releases it: it returns
what the body returned, or nil after logging the panic of the body. -/
theorem candidates_unlocked (gsu : gcSuggest) (host : Host) (algo : SuggestFn) (mx : Ctx)
    (h : gsu.locked = false) :
    ∃ r : Ran (List Candidate),
      gsu.candidates host algo mx = some r ∧
      r.gsu.locked = false ∧
      (∃ mid, r.events = [Event.profilePush "candidates", Event.mutexLock] ++ mid
        ++ [Event.mutexUnlock, Event.profilePop]) ∧
      ((∃ l, (gcSuggest.candidatesBody { gsu with locked := true } host algo mx).out = .ret l
          ∧ r.out = .ret l) ∨
        (∃ v, (gcSuggest.candidatesBody { gsu with locked := true } host algo mx).out
            = .panic v ∧ r.out = .ret [] ∧
          Event.logPrintf "gocode/suggest panic: %s\n%s\n" [v, "debug.Stack()"] ∈ r.events)) := by
  unfold gcSuggest.candidates
  simp only [h, Bool.false_eq_true, if_false]
  cases hb : (gcSuggest.candidatesBody { gsu with locked := true } host algo mx).out with
  | ret l =>
    exact ⟨_, rfl, rfl, ⟨_, rfl⟩, Or.inl ⟨l, rfl, rfl⟩⟩
  | panic v =>
    refine ⟨_, rfl, rfl,
      ⟨(gcSuggest.candidatesBody { gsu with locked := true } host algo mx).events
        ++ [Event.logPrintf "gocode/suggest panic: %s\n%s\n" [v, "debug.Stack()"]], ?_⟩,
      Or.inr ⟨v, rfl, rfl, ?_⟩⟩
    · simp
    · simp


/-- When the completion algorithm panics at once on a non-empty file, the body panics. -/
theorem candidatesBody_algo_panic (gsu : gcSuggest) (host : Host) (algo : SuggestFn)
    (mx : Ctx) (bld : build.Context) (src : List UInt8) (e : ErrVal) (v : String)
    (hb : mx.BuildContext = .ret bld) (hr : mx.View.ReadAll = .ret (src, e))
    (hs : src ≠ [])
    (ha : ∀ cfg : suggest.Config, algo cfg mx.View.Filename src mx.View.Pos = .panic v) :
    (gcSuggest.candidatesBody gsu host algo mx).out = .panic v := by
  have hl : (src.length == 0) = false := by
    cases src with
    | nil => exact absurd rfl hs
    | cons a t => rfl
  simp [gcSuggest.candidatesBody, gcSuggest.importer, hb, hr, hl, ha, SuggestProg.run]

/-- C8. With the mutex free, `candidates` always returns a list and never propagates a panic,
and the mutex is free again when it returns, on every exit path: the events of the call are
the profiler push and `Lock()`, then the body, then `Unlock()` and the profiler pop. If the
body panics (the completion algorithm, the importer it calls back, `BuildContext(mx)` or
`ReadAll()`), in particular if the completion algorithm panics on a non-empty file, the panic
is logged and the call returns the nil list. Hence a subsequent `candidates` call on the
resulting resolver, for any request, takes the mutex, returns a list and frees the mutex. -/
theorem fault_containment (gsu : gcSuggest) (host : Host) (algo : SuggestFn) (mx : Ctx)
    (h : gsu.locked = false) :
    ∃ r : Ran (List Candidate),
      gsu.candidates host algo mx = some r ∧
      (∃ l, r.out = .ret l) ∧
      r.gsu.locked = false ∧
      (∃ mid, r.events = [Event.profilePush "candidates", Event.mutexLock] ++ mid
        ++ [Event.mutexUnlock, Event.profilePop]) ∧
      (∀ v, (gcSuggest.candidatesBody { gsu with locked := true } host algo mx).out
          = .panic v →
        r.out = .ret [] ∧
        Event.logPrintf "gocode/suggest panic: %s\n%s\n" [v, "debug.Stack()"] ∈ r.events) ∧
      (∀ (bld : build.Context) (src : List UInt8) (e : ErrVal) (v : String),
        mx.BuildContext = .ret bld → mx.View.ReadAll = .ret (src, e) → src ≠ [] →
        (∀ cfg : suggest.Config, algo cfg mx.View.Filename src mx.View.Pos = .panic v) →
        r.out = .ret []) ∧
      (∀ (host2 : Host) (algo2 : SuggestFn) (mx2 : Ctx),
        ∃ (r2 : Ran (List Candidate)) (l2 : List Candidate),
          r.gsu.candidates host2 algo2 mx2 = some r2 ∧ r2.out = .ret l2 ∧
          r2.gsu.locked = false) := by
  obtain ⟨r, hr, hl, hev, hout⟩ := candidates_unlocked gsu host algo mx h
  have hpanic : ∀ v, (gcSuggest.candidatesBody { gsu with locked := true } host algo mx).out
      = .panic v →
      r.out = .ret [] ∧
      Event.logPrintf "gocode/suggest panic: %s\n%s\n" [v, "debug.Stack()"] ∈ r.events := by
    intro v hv
    rcases hout with ⟨l, hb, _⟩ | ⟨w, hb, ho, hlog⟩
    · rw [hb] at hv; cases hv
    · rw [hb] at hv
      cases hv
      exact ⟨ho, hlog⟩
  refine ⟨r, hr, ?_, hl, hev, hpanic, ?_, ?_⟩
  · rcases hout with ⟨l, _, ho⟩ | ⟨_, _, ho, _⟩
    · exact ⟨l, ho⟩
    · exact ⟨[], ho⟩
  · intro bld src e v hb hra hs ha
    exact (hpanic v (candidatesBody_algo_panic _ host algo mx bld src e v hb hra hs ha)).1
  · intro host2 algo2 mx2
    obtain ⟨r2, hr2, hl2, _, hout2⟩ := candidates_unlocked r.gsu host2 algo2 mx2 hl
    rcases hout2 with ⟨l, _, ho⟩ | ⟨_, _, ho, _⟩
    · exact ⟨r2, l, hr2, ho, hl2⟩
    · exact ⟨r2, [], hr2, ho, hl2⟩


/-- C8 at a concrete input: the completion algorithm resolves "fmt" and then faults; the call
returns the nil list with the mutex free, and a following call proposes its candidate. -/
theorem fault_containment_witness :
    ∃ r : Ran (List Candidate),
      exGsu.candidates exHost exAlgoFault exCtxMain = some r ∧
      r.out = .ret [] ∧ r.gsu.locked = false ∧
      ∃ (r2 : Ran (List Candidate)) (l2 : List Candidate),
        r.gsu.candidates exHost exAlgo exCtxMain = some r2 ∧ r2.out = .ret l2 ∧
        r2.gsu.locked = false :=
  let ⟨r, hr, _, hl, _, hp, _, hnext⟩ :=
    fault_containment exGsu exHost exAlgoFault exCtxMain (by decide)
  ⟨r, hr, (hp "index out of range" (by decide)).1, hl, hnext exHost exAlgo exCtxMain⟩

/-- C9. With the mutex free and `ReadAll()` returning no bytes (whatever error it returns
with them), for every file name, cursor offset, option set, cache and completion algorithm,
`candidates` returns the nil list and leaves the resolver, and so the cache, exactly as it
was; the completion algorithm is not called, no strategy is called and no import is
classified; `Lock()` and `Unlock()` are each called exactly once. When `BuildContext(mx)`
returns, the calls are exactly: profiler push, `Lock()`, `BuildContext(mx)`, the
construction of the request strategy, `ReadAll()`, `Unlock()`, profiler pop. -/
theorem empty_source_short_circuit (gsu : gcSuggest) (host : Host) (algo : SuggestFn)
    (mx : Ctx) (e : ErrVal)
    (h : gsu.locked = false) (hs : mx.View.ReadAll = .ret ([], e)) :
    ∃ r : Ran (List Candidate),
      gsu.candidates host algo mx = some r ∧
      r.out = .ret [] ∧
      r.gsu = gsu ∧
      r.events.filter Event.isSuggest = [] ∧
      strategyCalls r.events = [] ∧
      r.events.filter Event.isClassify = [] ∧
      r.events.count Event.mutexLock = 1 ∧
      r.events.count Event.mutexUnlock = 1 ∧
      (∀ bld : build.Context, mx.BuildContext = .ret bld →
        r.events =
          [Event.profilePush "candidates", Event.mutexLock, Event.buildContext,
            Event.newImporter (gcSuggest.newImporter gsu.togsuOpts host).kind,
            Event.readAll, Event.mutexUnlock, Event.profilePop]) := by
  have hgsu : gcSuggest.mk gsu.togsuOpts false gsu.grImp gsu.cache = gsu := by
    cases gsu
    simp only at h
    simp [h]
  cases hb : mx.BuildContext with
  | panic v =>
    have hc : gsu.candidates host algo mx = some ⟨.ret [], gsu,
        [Event.profilePush "candidates", Event.mutexLock, Event.buildContext,
          Event.logPrintf "gocode/suggest panic: %s\n%s\n" [v, "debug.Stack()"],
          Event.mutexUnlock, Event.profilePop]⟩ := by
      simp [gcSuggest.candidates, gcSuggest.candidatesBody, gcSuggest.importer, h, hb, hgsu]
    refine ⟨_, hc, rfl, rfl, ?_, ?_, ?_, ?_, ?_, ?_⟩
    · simp [Event.isSuggest]
    · simp [strategyCalls, Event.isStrategy]
    · simp [Event.isClassify]
    · simp [List.count_cons]
    · simp [List.count_cons]
    · intro bld hbld
      cases hbld
  | ret bld0 =>
    have hc : gsu.candidates host algo mx = some ⟨.ret [], gsu,
        [Event.profilePush "candidates", Event.mutexLock, Event.buildContext,
          Event.newImporter (gcSuggest.newImporter gsu.togsuOpts host).kind,
          Event.readAll, Event.mutexUnlock, Event.profilePop]⟩ := by
      simp [gcSuggest.candidates, gcSuggest.candidatesBody, gcSuggest.importer, h, hb, hs,
        hgsu]
    refine ⟨_, hc, rfl, rfl, ?_, ?_, ?_, ?_, ?_, ?_⟩
    · simp [Event.isSuggest]
    · simp [strategyCalls, Event.isStrategy]
    · simp [Event.isClassify]
    · simp [List.count_cons]
    · simp [List.count_cons]
    · intro bld _
      rfl


/-- C9 at a concrete input: an empty file on a fresh resolver. -/
theorem empty_source_short_circuit_witness :
    ∃ r : Ran (List Candidate),
      exGsu.candidates exHost exAlgo exCtxEmpty = some r ∧
      r.out = .ret [] ∧ r.gsu = exGsu ∧
      r.events =
        [Event.profilePush "candidates", Event.mutexLock, Event.buildContext,
          Event.newImporter .gcexportdata, Event.readAll, Event.mutexUnlock,
          Event.profilePop] :=
  let ⟨r, hr, ho, hg, _, _, _, _, _, hev⟩ :=
    empty_source_short_circuit exGsu exHost exAlgo exCtxEmpty none (by decide) rfl
  ⟨r, hr, ho, hg, hev exBld rfl⟩

end Margo
